import Mathlib

/-!
# Camera2Client

A shallow embedding of `services/camera/libcameraservice/Camera2Client.h`:
the policy constants of the class, the `Camera2Heap` utility class (the only
member whose body is in the header), and models of the members the header only
declares.
-/

namespace Camera2Client

/-! ## Constants declared in the header -/

/-- `static const int NO_STREAM = -1;` -/
def NO_STREAM : Int := -1

/-- `static const nsecs_t kWaitDuration = 10000000; // 10 ms` (in `FrameProcessor`). -/
def FrameProcessor.kWaitDuration : Int := 10000000

/-- `static const size_t kCallbackHeapCount = 6;` -/
def kCallbackHeapCount : Nat := 6

/-- `static const size_t kDefaultRecordingHeapCount = 8;` -/
def kDefaultRecordingHeapCount : Nat := 8

/-! ## Camera2Heap -/

/-- The value of a `size_t` expression on a platform whose `size_t` has `w` bits:
unsigned arithmetic wraps modulo `2 ^ w`. The width `w` is a parameter, the header
does not fix it. -/
def sizeT (w : Nat) (v : Nat) : Nat := v % 2 ^ w

/-- The arguments a `MemoryHeapBase(size, flags, name)` was built with. -/
structure MemoryHeapBase where
  size : Nat
  flags : Nat
  name : Option String
  deriving DecidableEq, Repr

/-- The arguments a `MemoryBase(heap, offset, size)` was built with; the heap is
always the `mHeap` of the enclosing `Camera2Heap`. -/
structure MemoryBase where
  offset : Nat
  size : Nat
  deriving DecidableEq, Repr

/-- The byte `b` of the backing heap belongs to the region `[offset, offset + size)`. -/
def MemoryBase.covers (m : MemoryBase) (b : Nat) : Prop :=
  m.offset ≤ b ∧ b < m.offset + m.size

instance (m : MemoryBase) (b : Nat) : Decidable (m.covers b) := by
  unfold MemoryBase.covers; infer_instance

/-- The members of `class Camera2Heap`. -/
structure Camera2Heap where
  mBufSize : Nat
  mNumBufs : Nat
  mHeap : MemoryHeapBase
  mBuffers : List MemoryBase
  deriving DecidableEq, Repr

/-- The constructor `Camera2Heap(size_t buf_size, uint_t num_buffers, const char *name)`:
`mHeap = new MemoryHeapBase(buf_size * num_buffers, 0, name)` and, for every
`i < mNumBufs`, `mBuffers[i] = new MemoryBase(mHeap, i * mBufSize, mBufSize)`. -/
def Camera2Heap.create (w : Nat) (buf_size num_buffers : Nat) (name : Option String) :
    Camera2Heap :=
  Camera2Heap.mk buf_size num_buffers
    (MemoryHeapBase.mk (sizeT w (buf_size * num_buffers)) 0 name)
    ((List.range num_buffers).map (fun i => MemoryBase.mk (sizeT w (i * buf_size)) buf_size))

/-- The constructor called with the buffer size only: the default arguments are
`num_buffers = 1` and `name = NULL`. -/
def Camera2Heap.createDefault (w : Nat) (buf_size : Nat) : Camera2Heap :=
  Camera2Heap.create w buf_size 1 none

/-- The sum of the sizes of all the buffers of a heap. -/
def Camera2Heap.totalBufferBytes (h : Camera2Heap) : Nat :=
  (h.mBuffers.map MemoryBase.size).sum

/-! ## Buffer pools and stream controllers -/

/-- The failure taxonomy of the client, with `OK` for success. -/
inductive Status
  | OK
  | ConfigurationRejected
  | PermissionDenied
  | DeviceBusy
  | DeviceError
  | ResourceExhausted
  | Timeout
  deriving DecidableEq, Repr

/-- Modelled from the spec: the constructor of `Camera2Client` is absent from the
header; the recording pool has "a configurable depth (default 8)", so the constructor
leaves `mRecordingHeapCount` at `kDefaultRecordingHeapCount` until
`commandSetVideoBufferCountL` replaces it. -/
def initialRecordingHeapCount : Nat := kDefaultRecordingHeapCount

/-- The logical outputs of the client. -/
inductive StreamKind
  | Preview
  | Callback
  | Capture
  | Recording
  deriving DecidableEq, Repr

/-- The state of one buffer slot of a pool. -/
inductive SlotState
  | Free
  | InFlightToDevice
  | FilledAwaitingConsumer
  deriving DecidableEq, Repr

/-- The settings a stream is created from: the frame size, the size in bytes of one
frame buffer (the result of `calculateBufferSize`, whose body is absent) and the
recording depth `mRecordingHeapCount`. -/
structure ConfigurationSnapshot where
  frameWidth : Nat
  frameHeight : Nat
  bufferSize : Nat
  recordingHeapCount : Nat
  deriving DecidableEq, Repr

/-- A configuration snapshot a stream can be allocated from: a non-empty frame, a
non-empty frame buffer and a non-zero recording depth. -/
def ConfigurationSnapshot.valid (cfg : ConfigurationSnapshot) : Prop :=
  0 < cfg.frameWidth ∧ 0 < cfg.frameHeight ∧ 0 < cfg.bufferSize ∧ 0 < cfg.recordingHeapCount

instance (cfg : ConfigurationSnapshot) : Decidable cfg.valid := by
  unfold ConfigurationSnapshot.valid; infer_instance

/-- Modelled from the spec: the pool depth policy of section 4.1 (the allocation code
of `updateCallbackStream`, `updateCaptureStream` and `updateRecordingStream` is absent
from the header): preview pools are double-buffered, capture pools have one slot,
recording pools have the configured depth and callback pools the fixed depth
`kCallbackHeapCount`. -/
def poolDepth (cfg : ConfigurationSnapshot) : StreamKind → Nat
  | StreamKind.Preview => 2
  | StreamKind.Callback => kCallbackHeapCount
  | StreamKind.Capture => 1
  | StreamKind.Recording => cfg.recordingHeapCount

/-- A buffer pool: the `Camera2Heap` holding the regions and the state of each slot
(`m*Heap` with the bookkeeping `m*HeapFree` counts). -/
structure BufferPool where
  heap : Camera2Heap
  slots : List SlotState
  deriving DecidableEq, Repr

/-- The pool size: the number of buffers of the heap, `mNumBufs`. -/
def BufferPool.size (p : BufferPool) : Nat := p.heap.mNumBufs

/-- The free count of the pool (`mCallbackHeapFree`, `mRecordingHeapFree`): the number
of slots that are `Free`. -/
def BufferPool.available (p : BufferPool) : Nat := p.slots.count SlotState.Free

/-- The number of slots currently handed to the device. -/
def BufferPool.inFlight (p : BufferPool) : Nat := p.slots.count SlotState.InFlightToDevice

/-- Modelled from the spec: pool allocation during `Configuring` (absent from the
header): a `Camera2Heap` of `depth` buffers of `bufSize` bytes, every slot `Free`. -/
def BufferPool.allocate (w bufSize depth : Nat) : BufferPool :=
  BufferPool.mk (Camera2Heap.create w bufSize depth none) (List.replicate depth SlotState.Free)

/-- Modelled from the spec: `acquire() -> BufferSlot | Exhausted` of section 4.1 (absent
from the header): the first `Free` slot goes `InFlightToDevice`. -/
def BufferPool.acquire (p : BufferPool) : Except Status (Nat × BufferPool) :=
  match p.slots.indexOf? SlotState.Free with
  | some i => Except.ok (i, BufferPool.mk p.heap (p.slots.set i SlotState.InFlightToDevice))
  | none => Except.error Status.ResourceExhausted

/-- Modelled from the spec: `recycle(slot)` of section 4.1 (absent from the header): the
device hands a filled slot back, `InFlightToDevice` becomes `FilledAwaitingConsumer`. -/
def BufferPool.recycle (p : BufferPool) (i : Nat) : BufferPool :=
  if p.slots[i]? = some SlotState.InFlightToDevice then
    BufferPool.mk p.heap (p.slots.set i SlotState.FilledAwaitingConsumer)
  else p

/-- Modelled from the spec: `release(slot)` of section 4.1 (absent from the header): the
consumer gives a filled slot back, `FilledAwaitingConsumer` becomes `Free`. -/
def BufferPool.release (p : BufferPool) (i : Nat) : BufferPool :=
  if p.slots[i]? = some SlotState.FilledAwaitingConsumer then
    BufferPool.mk p.heap (p.slots.set i SlotState.Free)
  else p

/-- One logical output stream: its kind, the device stream id (`m*StreamId`, `NO_STREAM`
when there is none) and its pool (`m*Heap`). -/
structure StreamDescriptor where
  streamKind : StreamKind
  deviceStreamId : Int
  bufferPool : Option BufferPool
  deriving DecidableEq, Repr

/-- A stream that has not been created. -/
def StreamDescriptor.absent (kind : StreamKind) : StreamDescriptor :=
  StreamDescriptor.mk kind NO_STREAM none

/-- Modelled from the spec: stream creation, the `Configuring` step of section 4.2 (the
bodies of `updateCallbackStream` and `updateRecordingStream` are absent from the
header): a configuration that cannot be allocated is rejected and the stream stays
absent, otherwise the stream gets the device id and a pool of the policy depth. -/
def createStream (w : Nat) (cfg : ConfigurationSnapshot) (kind : StreamKind) (deviceId : Int) :
    Except Status StreamDescriptor :=
  if cfg.valid then
    Except.ok (StreamDescriptor.mk kind deviceId
      (some (BufferPool.allocate w cfg.bufferSize (poolDepth cfg kind))))
  else Except.error Status.ConfigurationRejected

/-- Modelled from the spec: stream tear-down of section 4.2 (absent from the header): with
a slot still `InFlightToDevice` the bounded wait runs out and the result is a
`DeviceError`; otherwise the device stream is released (`NO_STREAM`) and every slot
of the pool is returned. -/
def destroyStream (s : StreamDescriptor) : Except Status StreamDescriptor :=
  match s.bufferPool with
  | none => Except.ok (StreamDescriptor.mk s.streamKind NO_STREAM none)
  | some p =>
    if p.inFlight = 0 then
      Except.ok (StreamDescriptor.mk s.streamKind NO_STREAM
        (some (BufferPool.mk p.heap (p.slots.map (fun _ => SlotState.Free)))))
    else Except.error Status.DeviceError

/-- Creating a stream and destroying it at once. -/
def createThenDestroy (w : Nat) (cfg : ConfigurationSnapshot) (kind : StreamKind)
    (deviceId : Int) : Except Status StreamDescriptor :=
  match createStream w cfg kind deviceId with
  | Except.ok s => destroyStream s
  | Except.error e => Except.error e

/-! ## Trigger notifications -/

/-- The kinds of one-shot trigger. -/
inductive TriggerKind
  | AutoFocus
  | AutoExposurePrecapture
  deriving DecidableEq, Repr

/-- A one-shot trigger that has been issued and not yet answered. -/
structure PendingTrigger where
  triggerId : Int
  kind : TriggerKind
  issuedAtRequestId : Nat
  deriving DecidableEq, Repr

/-- An upward notification of a state change: the kind, the `uint8_t newState` and the
`int triggerId` of the `notifyAutoFocus` or `notifyAutoExposure` call that raised it. -/
structure Notification where
  kind : TriggerKind
  newState : Nat
  triggerId : Int
  deriving DecidableEq, Repr

/-- The trigger bookkeeping: at most one pending trigger of each kind, and the id the
next trigger gets. -/
structure TriggerState where
  pending : TriggerKind → Option PendingTrigger
  nextTriggerId : Int

/-- No trigger issued yet. -/
def TriggerState.initial : TriggerState := TriggerState.mk (fun _ => none) 0

/-- What the client receives: a request for a one-shot operation, or a state change
reported by the device. -/
inductive TriggerEvent
  | issue (kind : TriggerKind) (requestId : Nat)
  | stateChange (kind : TriggerKind) (newState : Nat) (triggerId : Int)
  deriving DecidableEq, Repr

/-- What a step produces, in order: the trigger it issued, or the notification it sent
up. -/
inductive TriggerOutput
  | issued (t : PendingTrigger)
  | notified (n : Notification)
  deriving DecidableEq, Repr

/-- Modelled from the spec: issuing a one-shot trigger (the bodies of `autoFocus` and
`takePicture` are absent from the header): a `PendingTrigger` with a fresh id is
created and replaces the pending trigger of the same kind, which is discarded
without notification. -/
def issueTrigger (s : TriggerState) (kind : TriggerKind) (requestId : Nat) :
    TriggerState × List TriggerOutput :=
  let t := PendingTrigger.mk s.nextTriggerId kind requestId
  (TriggerState.mk (Function.update s.pending kind (some t)) (s.nextTriggerId + 1),
    [TriggerOutput.issued t])

/-- Modelled from the spec: the handling of a state change carrying a trigger id, shared
by `notifyAutoFocus` and `notifyAutoExposure` (their bodies are absent from the
header): when the id is that of the pending trigger of the kind, the notification
is sent up and the trigger is cleared; any other id is dropped. -/
def notifyTrigger (s : TriggerState) (kind : TriggerKind) (newState : Nat) (triggerId : Int) :
    TriggerState × List TriggerOutput :=
  match s.pending kind with
  | some t =>
    if t.triggerId = triggerId then
      (TriggerState.mk (Function.update s.pending kind none) s.nextTriggerId,
        [TriggerOutput.notified (Notification.mk kind newState triggerId)])
    else (s, [])
  | none => (s, [])

/-- The member `void notifyAutoFocus(uint8_t newState, int triggerId)`. -/
def notifyAutoFocus (s : TriggerState) (newState : Nat) (triggerId : Int) :
    TriggerState × List TriggerOutput :=
  notifyTrigger s TriggerKind.AutoFocus newState triggerId

/-- The member `void notifyAutoExposure(uint8_t newState, int triggerId)`. -/
def notifyAutoExposure (s : TriggerState) (newState : Nat) (triggerId : Int) :
    TriggerState × List TriggerOutput :=
  notifyTrigger s TriggerKind.AutoExposurePrecapture newState triggerId

/-- One event handled. -/
def stepTrigger (s : TriggerState) : TriggerEvent → TriggerState × List TriggerOutput
  | TriggerEvent.issue kind requestId => issueTrigger s kind requestId
  | TriggerEvent.stateChange TriggerKind.AutoFocus newState triggerId =>
    notifyAutoFocus s newState triggerId
  | TriggerEvent.stateChange TriggerKind.AutoExposurePrecapture newState triggerId =>
    notifyAutoExposure s newState triggerId

/-- A sequence of events handled in order, with everything it produced. -/
def runTriggers (s : TriggerState) : List TriggerEvent → TriggerState × List TriggerOutput
  | [] => (s, [])
  | e :: es =>
    let r := stepTrigger s e
    let r2 := runTriggers r.1 es
    (r2.1, r.2 ++ r2.2)

/-- The ids of the triggers of `kind` issued in a log, oldest first. The last one is the
most recent trigger of the kind; all the others have been superseded. -/
def issuedIds (kind : TriggerKind) : List TriggerOutput → List Int
  | [] => []
  | TriggerOutput.issued t :: rest =>
    if t.kind = kind then t.triggerId :: issuedIds kind rest else issuedIds kind rest
  | TriggerOutput.notified _ :: rest => issuedIds kind rest

/-- The invariant of the trigger bookkeeping against the log produced so far: a pending
trigger is the most recent one issued of its kind and has a larger id than all the
older ones, and every id issued is below the next id. -/
def TriggerInv (s : TriggerState) (acc : List TriggerOutput) : Prop :=
  (∀ k t, s.pending k = some t →
    ∃ older, issuedIds k acc = older ++ [t.triggerId] ∧ ∀ id ∈ older, id < t.triggerId) ∧
  (∀ k id, id ∈ issuedIds k acc → id < s.nextTriggerId)

/-! ## The ICamera operations and the ownership check -/

/-- The mutating methods of the ICamera interface the header declares. -/
inductive ICameraOp
  | disconnect
  | connect
  | lock
  | unlock
  | setPreviewDisplay
  | setPreviewTexture
  | setPreviewCallbackFlag
  | startPreview
  | stopPreview
  | storeMetaDataInBuffers
  | startRecording
  | stopRecording
  | releaseRecordingFrame
  | autoFocus
  | cancelAutoFocus
  | takePicture
  | setParameters
  | sendCommand
  deriving DecidableEq, Repr

/-- The declared return type of a method is `status_t`; the others (`disconnect`,
`setPreviewCallbackFlag`, `stopPreview`, `stopRecording`, `releaseRecordingFrame`)
are declared `void`. -/
def ICameraOp.returnsStatus : ICameraOp → Bool
  | ICameraOp.disconnect => false
  | ICameraOp.setPreviewCallbackFlag => false
  | ICameraOp.stopPreview => false
  | ICameraOp.stopRecording => false
  | ICameraOp.releaseRecordingFrame => false
  | _ => true

/-- The client state an operation can change: the owner, the parameters, the stream
ids and the enabled flags. -/
structure ClientState where
  mClientPid : Int
  mParameters : String
  mPreviewStreamId : Int
  mCallbackStreamId : Int
  mCaptureStreamId : Int
  mRecordingStreamId : Int
  previewEnabled : Bool
  recordingEnabled : Bool
  deriving DecidableEq, Repr

/-- Modelled from the spec: the body of `status_t checkPid(const char *checkLocation) const`
(absent from the header): the calling identity must be the one that established
ownership, a mismatch is `PermissionDenied`. The method is `const`, it returns a status
and leaves the state alone. -/
def checkPid (st : ClientState) (callingPid : Int) : Status :=
  if callingPid = st.mClientPid then Status.OK else Status.PermissionDenied

/-- Modelled from the spec: the common shape of the mutating ICamera methods (their bodies
are absent from the header): the ownership check comes first; on a mismatch the method
returns at once, with the status of the check when it is declared `status_t` and with
nothing when it is declared `void`. The rest of each method is the parameter `body`. -/
def invoke (body : ICameraOp → ClientState → ClientState × Status) (callingPid : Int)
    (op : ICameraOp) (st : ClientState) : ClientState × Option Status :=
  match checkPid st callingPid with
  | Status.OK =>
    let r := body op st
    (r.1, if op.returnsStatus then some r.2 else none)
  | res => (st, if op.returnsStatus then some res else none)

/-- A client owned by process 3, with no stream. -/
def ownedBy3 : ClientState := ClientState.mk 3 "" NO_STREAM NO_STREAM NO_STREAM NO_STREAM false false

/-- A method body that starts the preview and succeeds. -/
def enablePreview (_op : ICameraOp) (st : ClientState) : ClientState × Status :=
  (ClientState.mk st.mClientPid st.mParameters st.mPreviewStreamId st.mCallbackStreamId
    st.mCaptureStreamId st.mRecordingStreamId true st.recordingEnabled, Status.OK)

/-! ## Coordinate mapping -/

/-- A way of dividing integers with a rounding: the result is within one unit of the exact
quotient, `|b * rnd a b - a| < b` for a positive divisor. Truncation, floor, ceiling and
rounding to the nearest integer all qualify; an exact quotient is returned as it is. -/
def IsRounding (rnd : Int → Int → Int) : Prop :=
  ∀ a b, 0 < b → b * rnd a b - a < b ∧ a - b * rnd a b < b

/-- The division of C on `int`, truncating toward zero. -/
def divTruncate (a b : Int) : Int := Int.tdiv a b

/-- The division rounding to the nearest integer, halves upward. -/
def divNearest (a b : Int) : Int := (2 * a + b) / (2 * b)

/-- Modelled from the spec: the body of `int normalizedXToArray(int x) const` (absent from
the header): the affine transform that takes the normalized range -1000..1000 to the
pixel columns 0..arrayWidth-1. The result is an `int`; how the quotient is rounded is
fixed by neither the header nor the spec, so the rounding `rnd` is a parameter; the
transform is taken over the integers, as the spec states it. -/
def normalizedXToArray (rnd : Int → Int → Int) (arrayWidth : Int) (x : Int) : Int :=
  rnd ((x + 1000) * (arrayWidth - 1)) 2000

/-- Modelled from the spec: the body of `int normalizedYToArray(int y) const` (absent from
the header): the same affine transform onto the pixel rows 0..arrayHeight-1, the rounding
`rnd` a parameter. -/
def normalizedYToArray (rnd : Int → Int → Int) (arrayHeight : Int) (y : Int) : Int :=
  rnd ((y + 1000) * (arrayHeight - 1)) 2000

/-- Modelled from the spec: the body of `int arrayXToNormalized(int width) const` (absent
from the header): the inverse affine transform, from the pixel columns 0..arrayWidth-1
to -1000..1000, the rounding `rnd` a parameter. -/
def arrayXToNormalized (rnd : Int → Int → Int) (arrayWidth : Int) (width : Int) : Int :=
  rnd (width * 2000) (arrayWidth - 1) - 1000

/-- Modelled from the spec: the body of `int arrayYToNormalized(int height) const` (absent
from the header): the inverse affine transform on the rows, the rounding `rnd` a
parameter. -/
def arrayYToNormalized (rnd : Int → Int → Int) (arrayHeight : Int) (height : Int) : Int :=
  rnd (height * 2000) (arrayHeight - 1) - 1000

/-- The round trip normalized → array → normalized on the columns, `rndF` rounding the way
forth and `rndG` the way back. -/
def roundTripX (rndF rndG : Int → Int → Int) (arrayWidth : Int) (x : Int) : Int :=
  arrayXToNormalized rndG arrayWidth (normalizedXToArray rndF arrayWidth x)

/-- The round trip normalized → array → normalized on the rows. -/
def roundTripY (rndF rndG : Int → Int → Int) (arrayHeight : Int) (y : Int) : Int :=
  arrayYToNormalized rndG arrayHeight (normalizedYToArray rndF arrayHeight y)

/-! ## Lemmas on Camera2Heap -/

theorem sizeT_of_lt {w v : Nat} (h : v < 2 ^ w) : sizeT w v = v :=
  Nat.mod_eq_of_lt h

theorem slot_end_le_total (s n i : Nat) (hi : i < n) : i * s + s ≤ s * n := by
  calc i * s + s = (i + 1) * s := by ring
    _ ≤ n * s := Nat.mul_le_mul_right s hi
    _ = s * n := Nat.mul_comm n s

theorem create_getElem? (w s n i : Nat) (name : Option String) (hov : s * n < 2 ^ w)
    (hi : i < n) :
    (Camera2Heap.create w s n name).mBuffers[i]? = some (MemoryBase.mk (i * s) s) := by
  have hlt : i * s < 2 ^ w := by
    have := slot_end_le_total s n i hi
    omega
  simp [Camera2Heap.create, List.getElem?_map, List.getElem?_range hi, sizeT_of_lt hlt]

theorem sum_map_size_range (w s : Nat) (n : Nat) :
    (((List.range n).map (fun i => MemoryBase.mk (sizeT w (i * s)) s)).map MemoryBase.size).sum
      = s * n := by
  induction n with
  | zero => simp
  | succ k ih =>
    rw [List.range_succ, List.map_append, List.map_append, List.sum_append, ih]
    simp [Nat.mul_succ]

/-! ## Camera2Heap: the claims -/

/-- C4: a `Camera2Heap` built from the buffer size alone (the default buffer count) has
`mNumBufs = 1`, and its single buffer has offset 0 and size `s`: it covers the whole
backing heap, which has `s` bytes. -/
theorem createDefault_single_buffer (w s : Nat) (hs : s < 2 ^ w) :
    (Camera2Heap.createDefault w s).mNumBufs = 1 ∧
    (Camera2Heap.createDefault w s).mBufSize = s ∧
    (Camera2Heap.createDefault w s).mBuffers = [MemoryBase.mk 0 s] ∧
    (Camera2Heap.createDefault w s).mHeap.size = s := by
  refine ⟨rfl, rfl, ?_, ?_⟩
  · have h1 : List.range 1 = [0] := rfl
    simp [Camera2Heap.createDefault, Camera2Heap.create, sizeT, h1]
  · simp [Camera2Heap.createDefault, Camera2Heap.create, sizeT_of_lt hs]

theorem createDefault_single_buffer_witness :
    100 < 2 ^ 32 ∧
    (Camera2Heap.createDefault 32 100).mNumBufs = 1 ∧
    (Camera2Heap.createDefault 32 100).mBufSize = 100 ∧
    (Camera2Heap.createDefault 32 100).mBuffers = [MemoryBase.mk 0 100] ∧
    (Camera2Heap.createDefault 32 100).mHeap.size = 100 :=
  ⟨by decide, createDefault_single_buffer 32 100 (by decide)⟩

/-- C9: the buffers of one `Camera2Heap` never overlap: with a buffer size `s > 0` and a
count `n` whose product does not overflow, the constructor gives the buffers `i ≠ j`
the byte ranges `[i*s, i*s + s)` and `[j*s, j*s + s)`, neither of them empty, and no
byte lies in both. -/
theorem create_buffers_disjoint (w s n i j : Nat) (name : Option String) (hs : 0 < s)
    (hov : s * n < 2 ^ w) (hi : i < n) (hj : j < n) (hij : i ≠ j) :
    ∃ bi bj, (Camera2Heap.create w s n name).mBuffers[i]? = some bi ∧
      (Camera2Heap.create w s n name).mBuffers[j]? = some bj ∧
      bi = MemoryBase.mk (i * s) s ∧ bj = MemoryBase.mk (j * s) s ∧
      bi.covers (i * s) ∧ bj.covers (j * s) ∧
      ∀ b, ¬ (bi.covers b ∧ bj.covers b) := by
  refine ⟨_, _, create_getElem? w s n i name hov hi, create_getElem? w s n j name hov hj,
    rfl, rfl, ⟨Nat.le_refl _, Nat.lt_add_of_pos_right hs⟩,
    ⟨Nat.le_refl _, Nat.lt_add_of_pos_right hs⟩, ?_⟩
  rintro b ⟨⟨h1, h2⟩, h3, h4⟩
  simp only at h1 h2 h3 h4
  rcases Nat.lt_or_gt_of_ne hij with h | h
  · have : (i + 1) * s ≤ j * s := Nat.mul_le_mul_right s h
    have e : (i + 1) * s = i * s + s := by ring
    omega
  · have : (j + 1) * s ≤ i * s := Nat.mul_le_mul_right s h
    have e : (j + 1) * s = j * s + s := by ring
    omega

theorem create_buffers_disjoint_witness :
    ∃ bi bj, (Camera2Heap.create 32 100 3 none).mBuffers[0]? = some bi ∧
      (Camera2Heap.create 32 100 3 none).mBuffers[2]? = some bj ∧
      bi = MemoryBase.mk (0 * 100) 100 ∧ bj = MemoryBase.mk (2 * 100) 100 ∧
      bi.covers (0 * 100) ∧ bj.covers (2 * 100) ∧
      ∀ b, ¬ (bi.covers b ∧ bj.covers b) :=
  create_buffers_disjoint 32 100 3 0 2 none (by decide) (by decide) (by decide) (by decide)
    (by decide)

/-- C10: a `Camera2Heap` tiles its backing allocation: when `s * n` does not overflow, the
constructor creates exactly `n` buffers, buffer `i` has offset `i*s` and size `s` and
ends within the heap of `s*n` bytes, and the buffer sizes sum to the heap size. -/
theorem create_tiles_heap (w s n : Nat) (name : Option String) (hov : s * n < 2 ^ w) :
    (Camera2Heap.create w s n name).mNumBufs = n ∧
    (Camera2Heap.create w s n name).mBuffers.length = n ∧
    (Camera2Heap.create w s n name).mHeap.size = s * n ∧
    (∀ i, i < n →
      (Camera2Heap.create w s n name).mBuffers[i]? = some (MemoryBase.mk (i * s) s) ∧
      i * s + s ≤ (Camera2Heap.create w s n name).mHeap.size) ∧
    (Camera2Heap.create w s n name).totalBufferBytes =
      (Camera2Heap.create w s n name).mHeap.size := by
  have hsize : (Camera2Heap.create w s n name).mHeap.size = s * n := by
    simp [Camera2Heap.create, sizeT_of_lt hov]
  refine ⟨rfl, ?_, hsize, ?_, ?_⟩
  · simp [Camera2Heap.create]
  · intro i hi
    refine ⟨create_getElem? w s n i name hov hi, ?_⟩
    rw [hsize]
    exact slot_end_le_total s n i hi
  · rw [hsize]
    exact sum_map_size_range w s n

theorem create_tiles_heap_witness :
    460800 * 8 < 2 ^ 32 ∧
    (Camera2Heap.create 32 460800 8 none).mNumBufs = 8 ∧
    (Camera2Heap.create 32 460800 8 none).mBuffers.length = 8 ∧
    (Camera2Heap.create 32 460800 8 none).mHeap.size = 460800 * 8 ∧
    (∀ i, i < 8 →
      (Camera2Heap.create 32 460800 8 none).mBuffers[i]? = some (MemoryBase.mk (i * 460800) 460800) ∧
      i * 460800 + 460800 ≤ (Camera2Heap.create 32 460800 8 none).mHeap.size) ∧
    (Camera2Heap.create 32 460800 8 none).totalBufferBytes =
      (Camera2Heap.create 32 460800 8 none).mHeap.size :=
  ⟨by decide, create_tiles_heap 32 460800 8 none (by decide)⟩

/-! ## Constants: the claims -/

/-- C3: the pool depth constants: the callback pool has the fixed depth
`kCallbackHeapCount = 6`, and the default depth of the recording pool is
`kDefaultRecordingHeapCount = 8`, the value of `mRecordingHeapCount` as long as no video
buffer count has been set. -/
theorem pool_depth_constants :
    kCallbackHeapCount = 6 ∧ kDefaultRecordingHeapCount = 8 ∧
    initialRecordingHeapCount = kDefaultRecordingHeapCount ∧
    (∀ cfg, poolDepth cfg StreamKind.Callback = 6) ∧
    (∀ fw fh bs, poolDepth (ConfigurationSnapshot.mk fw fh bs initialRecordingHeapCount)
      StreamKind.Recording = 8) :=
  ⟨rfl, rfl, rfl, fun _ => rfl, fun _ _ _ => rfl⟩

/-- C5: the wait interval of the frame processor is 10 ms: `FrameProcessor::kWaitDuration`,
in nanoseconds, is `10 * 1000000 = 10000000`. -/
theorem kWaitDuration_is_10ms :
    FrameProcessor.kWaitDuration = 10 * 1000000 ∧ FrameProcessor.kWaitDuration = 10000000 :=
  ⟨by decide, rfl⟩

/-! ## Streams: the claims -/

theorem count_replicate_free (n : Nat) :
    (List.replicate n SlotState.Free).count SlotState.InFlightToDevice = 0 := by
  induction n with
  | zero => rfl
  | succ k ih => simpa [List.replicate_succ] using ih

theorem count_map_free (l : List SlotState) :
    (l.map (fun _ => SlotState.Free)).count SlotState.Free = l.length := by
  induction l with
  | nil => rfl
  | cons a t ih => simp [ih]

/-- C8, as stated, fails for the methods declared `void`: `disconnect` called by process 7
on a client owned by process 3 leaves the state unchanged but returns no status, so it
does not return a `PermissionDenied` failure. -/
theorem void_op_returns_no_status :
    (7 : Int) ≠ ownedBy3.mClientPid ∧
    (invoke enablePreview 7 ICameraOp.disconnect ownedBy3).2 = none ∧
    ¬ ((invoke enablePreview 7 ICameraOp.disconnect ownedBy3).2 = some Status.PermissionDenied ∧
       (invoke enablePreview 7 ICameraOp.disconnect ownedBy3).1 = ownedBy3) := by
  decide

/-- C8, amended: every mutating operation checks ownership first: when the calling
identity is not the owner, the client state is unchanged, and the operation returns
`PermissionDenied` when it is declared `status_t` and returns nothing when it is
declared `void`. -/
theorem mismatch_denied_without_effect (body : ICameraOp → ClientState → ClientState × Status)
    (callingPid : Int) (op : ICameraOp) (st : ClientState) (hpid : callingPid ≠ st.mClientPid) :
    checkPid st callingPid = Status.PermissionDenied ∧
    (invoke body callingPid op st).1 = st ∧
    (op.returnsStatus = true → (invoke body callingPid op st).2 = some Status.PermissionDenied) ∧
    (op.returnsStatus = false → (invoke body callingPid op st).2 = none) := by
  have hc : checkPid st callingPid = Status.PermissionDenied := by
    simp [checkPid, hpid]
  refine ⟨hc, ?_, ?_, ?_⟩
  · simp [invoke, hc]
  · intro h
    simp [invoke, hc, h]
  · intro h
    simp [invoke, hc, h]

theorem mismatch_denied_without_effect_witness :
    (7 : Int) ≠ ownedBy3.mClientPid ∧
    checkPid ownedBy3 7 = Status.PermissionDenied ∧
    (invoke enablePreview 7 ICameraOp.startPreview ownedBy3).1 = ownedBy3 ∧
    (ICameraOp.startPreview.returnsStatus = true →
      (invoke enablePreview 7 ICameraOp.startPreview ownedBy3).2 = some Status.PermissionDenied) ∧
    (ICameraOp.startPreview.returnsStatus = false →
      (invoke enablePreview 7 ICameraOp.startPreview ownedBy3).2 = none) :=
  ⟨by decide, mismatch_denied_without_effect enablePreview 7 ICameraOp.startPreview ownedBy3
    (by decide)⟩

/-! ## Coordinate mapping: lemmas -/

theorem isRounding_divTruncate : IsRounding divTruncate := by
  intro a b hb
  have hb0 : b ≠ 0 := by omega
  unfold divTruncate
  by_cases ha : 0 ≤ a
  · rw [Int.tdiv_eq_ediv ha (by omega)]
    have h1 := Int.ediv_add_emod a b
    have h2 := Int.emod_nonneg a hb0
    have h3 := Int.emod_lt_of_pos a hb
    constructor <;> omega
  · have e : a.tdiv b = -((-a) / b) := by
      have e1 : a.tdiv b = -((-a).tdiv b) := by rw [Int.neg_tdiv, Int.neg_neg]
      rw [e1, Int.tdiv_eq_ediv (by omega) (by omega)]
    have h1 := Int.ediv_add_emod (-a) b
    have h2 := Int.emod_nonneg (-a) hb0
    have h3 := Int.emod_lt_of_pos (-a) hb
    rw [e, Int.mul_neg]
    constructor <;> omega

theorem isRounding_divNearest : IsRounding divNearest := by
  intro a b hb
  have hb0 : 2 * b ≠ 0 := by omega
  unfold divNearest
  have h1 := Int.ediv_add_emod (2 * a + b) (2 * b)
  have h2 := Int.emod_nonneg (2 * a + b) hb0
  have h3 := Int.emod_lt_of_pos (2 * a + b) (by omega : 0 < 2 * b)
  have e : 2 * b * ((2 * a + b) / (2 * b)) = 2 * (b * ((2 * a + b) / (2 * b))) := by ring
  rw [e] at h1
  constructor <;> omega

theorem rounding_exact {rnd : Int → Int → Int} (h : IsRounding rnd) (b k : Int) (hb : 0 < b) :
    rnd (b * k) b = k := by
  obtain ⟨h1, h2⟩ := h (b * k) b hb
  have e1 : b * (rnd (b * k) b - k) < b * 1 := by
    rw [Int.mul_sub, Int.mul_one]; exact h1
  have e2 : b * (k - rnd (b * k) b) < b * 1 := by
    rw [Int.mul_sub, Int.mul_one]; exact h2
  have l1 := Int.lt_of_mul_lt_mul_left e1 (by omega)
  have l2 := Int.lt_of_mul_lt_mul_left e2 (by omega)
  omega

theorem normalizedXToArray_low {rnd : Int → Int → Int} (h : IsRounding rnd) (W : Int) :
    normalizedXToArray rnd W (-1000) = 0 := by
  have e : ((-1000 : Int) + 1000) * (W - 1) = 2000 * 0 := by ring
  rw [normalizedXToArray, e]
  exact rounding_exact h 2000 0 (by decide)

theorem normalizedXToArray_high {rnd : Int → Int → Int} (h : IsRounding rnd) (W : Int) :
    normalizedXToArray rnd W 1000 = W - 1 := by
  have e : ((1000 : Int) + 1000) * (W - 1) = 2000 * (W - 1) := by ring
  rw [normalizedXToArray, e]
  exact rounding_exact h 2000 (W - 1) (by decide)

theorem normalizedXToArray_near_center {rnd : Int → Int → Int} (h : IsRounding rnd) (W : Int) :
    W - 2 ≤ 2 * normalizedXToArray rnd W 0 ∧ 2 * normalizedXToArray rnd W 0 ≤ W := by
  have e : ((0 : Int) + 1000) * (W - 1) = 1000 * (W - 1) := by ring
  obtain ⟨h1, h2⟩ := h (1000 * (W - 1)) 2000 (by decide)
  rw [normalizedXToArray, e]
  constructor <;> omega

theorem normalizedXToArray_center_odd {rnd : Int → Int → Int} (h : IsRounding rnd) (W : Int)
    (hodd : W % 2 = 1) : 2 * normalizedXToArray rnd W 0 = W - 1 := by
  have e : ((0 : Int) + 1000) * (W - 1) = 2000 * ((W - 1) / 2) := by omega
  rw [normalizedXToArray, e, rounding_exact h 2000 _ (by decide)]
  omega

theorem normalizedXToArray_range {rnd : Int → Int → Int} (h : IsRounding rnd) (W x : Int)
    (hW : 1 ≤ W) (hlo : -1000 ≤ x) (hhi : x ≤ 1000) :
    0 ≤ normalizedXToArray rnd W x ∧ normalizedXToArray rnd W x ≤ W - 1 := by
  have hp : 0 ≤ (x + 1000) * (W - 1) := Int.mul_nonneg (by omega) (by omega)
  have hq : (x + 1000) * (W - 1) ≤ 2000 * (W - 1) :=
    Int.mul_le_mul_of_nonneg_right (by omega) (by omega)
  obtain ⟨h1, h2⟩ := h ((x + 1000) * (W - 1)) 2000 (by decide)
  rw [normalizedXToArray]
  generalize (x + 1000) * (W - 1) = p at hp hq h1 h2
  constructor <;> omega

theorem roundTripX_low {rndF rndG : Int → Int → Int} (hF : IsRounding rndF)
    (hG : IsRounding rndG) (W : Int) (hW : 2 ≤ W) : roundTripX rndF rndG W (-1000) = -1000 := by
  have e : (0 : Int) * 2000 = (W - 1) * 0 := by ring
  rw [roundTripX, normalizedXToArray_low hF, arrayXToNormalized, e,
    rounding_exact hG (W - 1) 0 (by omega)]
  rfl

theorem roundTripX_high {rndF rndG : Int → Int → Int} (hF : IsRounding rndF)
    (hG : IsRounding rndG) (W : Int) (hW : 2 ≤ W) : roundTripX rndF rndG W 1000 = 1000 := by
  rw [roundTripX, normalizedXToArray_high hF, arrayXToNormalized,
    rounding_exact hG (W - 1) 2000 (by omega)]
  rfl

theorem roundTripX_center_odd {rndF rndG : Int → Int → Int} (hF : IsRounding rndF)
    (hG : IsRounding rndG) (W : Int) (hW : 2 ≤ W) (hodd : W % 2 = 1) :
    roundTripX rndF rndG W 0 = 0 := by
  have hc := normalizedXToArray_center_odd hF W hodd
  have e : normalizedXToArray rndF W 0 * 2000 = (W - 1) * 1000 := by
    have : normalizedXToArray rndF W 0 * 2000 = 1000 * (2 * normalizedXToArray rndF W 0) := by
      ring
    rw [this, hc]; ring
  rw [roundTripX, arrayXToNormalized, e, rounding_exact hG (W - 1) 1000 (by omega)]
  rfl

theorem arrayXToNormalized_640_ne_zero {rnd : Int → Int → Int} (h : IsRounding rnd) (a : Int) :
    arrayXToNormalized rnd 640 a ≠ 0 := by
  intro h0
  obtain ⟨h1, h2⟩ := h (a * 2000) (640 - 1) (by decide)
  have hq : rnd (a * 2000) (640 - 1) = 1000 := by
    unfold arrayXToNormalized at h0
    omega
  rw [hq] at h1 h2
  omega

theorem arrayXToNormalized_480_ne_zero {rnd : Int → Int → Int} (h : IsRounding rnd) (a : Int) :
    arrayXToNormalized rnd 480 a ≠ 0 := by
  intro h0
  obtain ⟨h1, h2⟩ := h (a * 2000) (480 - 1) (by decide)
  have hq : rnd (a * 2000) (480 - 1) = 1000 := by
    unfold arrayXToNormalized at h0
    omega
  rw [hq] at h1 h2
  omega

/-! ## Coordinate mapping: the claims -/

/-- C2, as stated, fails at the centre: the centre `c` of the columns 0..639 has
`2 * c = 639` and that of the rows 0..479 has `2 * c = 479`, so whatever the rounding,
the pixel (0, 0) maps to on a 640 x 480 array is not the centre of the array. -/
theorem center_of_even_axis_not_a_pixel :
    (∀ rnd : Int → Int → Int, 2 * normalizedXToArray rnd 640 0 ≠ 640 - 1) ∧
    (∀ rnd : Int → Int → Int, 2 * normalizedYToArray rnd 480 0 ≠ 480 - 1) ∧
    2 * normalizedXToArray divTruncate 640 0 = 638 ∧
    2 * normalizedXToArray divNearest 640 0 = 640 :=
  ⟨fun _ => by omega, fun _ => by omega, by decide, by decide⟩

/-- C2, amended: whatever the rounding, on an active array of width `W` and height `H`
the normalized-to-array mapping is exact at the corners, -1000 maps to 0 and 1000 to
`W - 1` (resp. `H - 1`), every normalized input in -1000..1000 maps into `0..W-1` (resp.
`0..H-1`), and (0, 0) maps to the centre of the array on an axis with an odd number of
pixels and to a pixel within half a pixel of the centre on any axis. -/
theorem normalized_to_array_exact (rnd : Int → Int → Int) (W H : Int) (hr : IsRounding rnd)
    (hW : 1 ≤ W) (hH : 1 ≤ H) :
    normalizedXToArray rnd W (-1000) = 0 ∧ normalizedXToArray rnd W 1000 = W - 1 ∧
    normalizedYToArray rnd H (-1000) = 0 ∧ normalizedYToArray rnd H 1000 = H - 1 ∧
    (W % 2 = 1 → 2 * normalizedXToArray rnd W 0 = W - 1) ∧
    (H % 2 = 1 → 2 * normalizedYToArray rnd H 0 = H - 1) ∧
    (W - 2 ≤ 2 * normalizedXToArray rnd W 0 ∧ 2 * normalizedXToArray rnd W 0 ≤ W) ∧
    (H - 2 ≤ 2 * normalizedYToArray rnd H 0 ∧ 2 * normalizedYToArray rnd H 0 ≤ H) ∧
    (∀ x, -1000 ≤ x → x ≤ 1000 →
      0 ≤ normalizedXToArray rnd W x ∧ normalizedXToArray rnd W x ≤ W - 1) ∧
    (∀ y, -1000 ≤ y → y ≤ 1000 →
      0 ≤ normalizedYToArray rnd H y ∧ normalizedYToArray rnd H y ≤ H - 1) :=
  ⟨normalizedXToArray_low hr W, normalizedXToArray_high hr W, normalizedXToArray_low hr H,
    normalizedXToArray_high hr H, normalizedXToArray_center_odd hr W,
    normalizedXToArray_center_odd hr H, normalizedXToArray_near_center hr W,
    normalizedXToArray_near_center hr H,
    fun x hlo hhi => normalizedXToArray_range hr W x hW hlo hhi,
    fun y hlo hhi => normalizedXToArray_range hr H y hH hlo hhi⟩

theorem normalized_to_array_exact_witness :
    IsRounding divTruncate ∧ (1 : Int) ≤ 641 ∧ (1 : Int) ≤ 480 ∧
    normalizedXToArray divTruncate 641 (-1000) = 0 ∧
    normalizedXToArray divTruncate 641 1000 = 641 - 1 ∧
    normalizedYToArray divTruncate 480 (-1000) = 0 ∧
    normalizedYToArray divTruncate 480 1000 = 480 - 1 ∧
    ((641 : Int) % 2 = 1 → 2 * normalizedXToArray divTruncate 641 0 = 641 - 1) ∧
    ((480 : Int) % 2 = 1 → 2 * normalizedYToArray divTruncate 480 0 = 480 - 1) ∧
    (641 - 2 ≤ 2 * normalizedXToArray divTruncate 641 0 ∧
      2 * normalizedXToArray divTruncate 641 0 ≤ 641) ∧
    (480 - 2 ≤ 2 * normalizedYToArray divTruncate 480 0 ∧
      2 * normalizedYToArray divTruncate 480 0 ≤ 480) ∧
    (∀ x, -1000 ≤ x → x ≤ 1000 →
      0 ≤ normalizedXToArray divTruncate 641 x ∧ normalizedXToArray divTruncate 641 x ≤ 641 - 1) ∧
    (∀ y, -1000 ≤ y → y ≤ 1000 →
      0 ≤ normalizedYToArray divTruncate 480 y ∧ normalizedYToArray divTruncate 480 y ≤ 480 - 1) :=
  ⟨isRounding_divTruncate, by decide, by decide,
    normalized_to_array_exact divTruncate 641 480 isRounding_divTruncate (by decide) (by decide)⟩

/-- C1, as stated, fails at the centre: on a 640 x 480 array no pixel is taken back to 0,
whatever the rounding of the way back, so the round trip of (0, 0) is not (0, 0) for any
way forth; with the truncating division it is (-2, -3). On an array of a single column
both extremes map to the same pixel and cannot both come back. -/
theorem round_trip_center_inexact :
    (∀ rndF rndG : Int → Int → Int, IsRounding rndG → roundTripX rndF rndG 640 0 ≠ 0) ∧
    (∀ rndF rndG : Int → Int → Int, IsRounding rndG → roundTripY rndF rndG 480 0 ≠ 0) ∧
    (∀ rndF rndG : Int → Int → Int,
      ¬ (roundTripX rndF rndG 1 (-1000) = -1000 ∧ roundTripX rndF rndG 1 1000 = 1000)) ∧
    roundTripX divTruncate divTruncate 640 0 = -2 ∧
    roundTripY divTruncate divTruncate 480 0 = -3 := by
  refine ⟨fun rndF rndG hG => arrayXToNormalized_640_ne_zero hG _,
    fun rndF rndG hG => arrayXToNormalized_480_ne_zero hG _, ?_, by decide, by decide⟩
  rintro rndF rndG ⟨h1, h2⟩
  have e1 : ((-1000 : Int) + 1000) * (1 - 1) = 0 := by decide
  have e2 : ((1000 : Int) + 1000) * (1 - 1) = 0 := by decide
  simp only [roundTripX, normalizedXToArray, e1, e2] at h1 h2
  omega

/-- C1, amended: whatever the rounding, on an active array with at least two columns and
two rows the round trip normalized → array → normalized is exact at the four extremes
(±1000, ±1000), and at the centre (0, 0) it is exact on an axis that has an odd number
of pixels. -/
theorem round_trip_exact_at_extremes (rndF rndG : Int → Int → Int) (W H : Int)
    (hF : IsRounding rndF) (hG : IsRounding rndG) (hW : 2 ≤ W) (hH : 2 ≤ H) :
    (∀ x, x = -1000 ∨ x = 1000 → roundTripX rndF rndG W x = x) ∧
    (∀ y, y = -1000 ∨ y = 1000 → roundTripY rndF rndG H y = y) ∧
    (W % 2 = 1 → roundTripX rndF rndG W 0 = 0) ∧
    (H % 2 = 1 → roundTripY rndF rndG H 0 = 0) := by
  refine ⟨?_, ?_, roundTripX_center_odd hF hG W hW, roundTripX_center_odd hF hG H hH⟩
  · rintro x (rfl | rfl)
    · exact roundTripX_low hF hG W hW
    · exact roundTripX_high hF hG W hW
  · rintro y (rfl | rfl)
    · exact roundTripX_low hF hG H hH
    · exact roundTripX_high hF hG H hH

theorem round_trip_exact_at_extremes_witness :
    IsRounding divNearest ∧ IsRounding divTruncate ∧ (2 : Int) ≤ 641 ∧ (2 : Int) ≤ 481 ∧
    (∀ x, x = -1000 ∨ x = 1000 → roundTripX divNearest divTruncate 641 x = x) ∧
    (∀ y, y = -1000 ∨ y = 1000 → roundTripY divNearest divTruncate 481 y = y) ∧
    ((641 : Int) % 2 = 1 → roundTripX divNearest divTruncate 641 0 = 0) ∧
    ((481 : Int) % 2 = 1 → roundTripY divNearest divTruncate 481 0 = 0) :=
  ⟨isRounding_divNearest, isRounding_divTruncate, by decide, by decide,
    round_trip_exact_at_extremes divNearest divTruncate 641 481 isRounding_divNearest
      isRounding_divTruncate (by decide) (by decide)⟩

/-! ## Trigger notifications: lemmas -/

theorem issuedIds_append (k : TriggerKind) (a b : List TriggerOutput) :
    issuedIds k (a ++ b) = issuedIds k a ++ issuedIds k b := by
  induction a with
  | nil => rfl
  | cons x t ih =>
    cases x with
    | issued p => by_cases h : p.kind = k <;> simp [issuedIds, h, ih]
    | notified m => simp [issuedIds, ih]

theorem stepTrigger_stateChange (s : TriggerState) (k : TriggerKind) (st : Nat) (id : Int) :
    stepTrigger s (TriggerEvent.stateChange k st id) = notifyTrigger s k st id := by
  cases k <;> rfl

theorem triggerInv_initial : TriggerInv TriggerState.initial [] := by
  constructor
  · intro k t h
    simp [TriggerState.initial] at h
  · intro k id h
    simp [issuedIds] at h

theorem notifyTrigger_cases (s : TriggerState) (k : TriggerKind) (st : Nat) (id : Int) :
    notifyTrigger s k st id = (s, []) ∨
    (∃ t, s.pending k = some t ∧ t.triggerId = id ∧
      notifyTrigger s k st id =
        (TriggerState.mk (Function.update s.pending k none) s.nextTriggerId,
          [TriggerOutput.notified (Notification.mk k st id)])) := by
  unfold notifyTrigger
  cases hp : s.pending k with
  | none => left; rfl
  | some t =>
    by_cases hid : t.triggerId = id
    · right
      exact ⟨t, rfl, hid, by simp [hid]⟩
    · left
      simp [hid]

theorem step_preserves (s : TriggerState) (acc : List TriggerOutput) (e : TriggerEvent)
    (h : TriggerInv s acc) : TriggerInv (stepTrigger s e).1 (acc ++ (stepTrigger s e).2) := by
  obtain ⟨hA, hB⟩ := h
  cases e with
  | issue kind req =>
    simp only [stepTrigger, issueTrigger]
    constructor
    · intro k t ht
      by_cases hk : k = kind
      · subst hk
        simp only [Function.update_same, Option.some.injEq] at ht
        subst ht
        refine ⟨issuedIds k acc, ?_, fun id hid => hB k id hid⟩
        simp [issuedIds_append, issuedIds]
      · simp only [Function.update_noteq hk] at ht
        obtain ⟨older, ho, hlt⟩ := hA k t ht
        refine ⟨older, ?_, hlt⟩
        have hk2 : ¬ kind = k := fun h2 => hk h2.symm
        simp [issuedIds_append, issuedIds, hk2, ho]
    · intro k id hid
      show id < s.nextTriggerId + 1
      simp only [issuedIds_append, issuedIds, List.mem_append] at hid
      rcases hid with hid | hid
      · have := hB k id hid
        omega
      · by_cases hk : kind = k
        · simp [hk] at hid
          omega
        · simp [hk] at hid
  | stateChange kind st id =>
    rw [stepTrigger_stateChange]
    rcases notifyTrigger_cases s kind st id with h0 | ⟨t, _, _, h1⟩
    · rw [h0]
      simpa using ⟨hA, hB⟩
    · rw [h1]
      constructor
      · intro k t2 ht
        by_cases hk : k = kind
        · subst hk
          simp at ht
        · simp only [Function.update_noteq hk] at ht
          obtain ⟨older, ho, hlt⟩ := hA k t2 ht
          exact ⟨older, by simp [issuedIds_append, issuedIds, ho], hlt⟩
      · intro k id2 hid
        simp only [issuedIds_append, issuedIds, List.append_nil] at hid
        exact hB k id2 hid

theorem step_output_cases (s : TriggerState) (e : TriggerEvent) :
    (stepTrigger s e).2 = [] ∨ (∃ t, (stepTrigger s e).2 = [TriggerOutput.issued t]) ∨
    (∃ n t, (stepTrigger s e).2 = [TriggerOutput.notified n] ∧ s.pending n.kind = some t ∧
      t.triggerId = n.triggerId) := by
  cases e with
  | issue kind req => right; left; exact ⟨_, rfl⟩
  | stateChange kind st id =>
    rw [stepTrigger_stateChange]
    rcases notifyTrigger_cases s kind st id with h0 | ⟨t, hp, hid, h1⟩
    · left; rw [h0]
    · right; right
      exact ⟨Notification.mk kind st id, t, by rw [h1], hp, hid⟩

theorem run_notified (evs : List TriggerEvent) :
    ∀ (s : TriggerState) (acc l1 l2 : List TriggerOutput) (n : Notification),
      TriggerInv s acc →
      (runTriggers s evs).2 = l1 ++ TriggerOutput.notified n :: l2 →
      ∃ older, issuedIds n.kind (acc ++ l1) = older ++ [n.triggerId] ∧
        ∀ id ∈ older, id < n.triggerId := by
  induction evs with
  | nil =>
    intro s acc l1 l2 n _ h
    simp [runTriggers] at h
  | cons e es ih =>
    intro s acc l1 l2 n hinv h
    have hinv2 := step_preserves s acc e hinv
    simp only [runTriggers] at h
    rcases step_output_cases s e with h0 | ⟨t, h1⟩ | ⟨m, t, h1, hp, hid⟩
    · rw [h0] at h hinv2
      rw [List.append_nil] at hinv2
      exact ih _ acc l1 l2 n hinv2 (by simpa using h)
    · rw [h1] at h hinv2
      cases l1 with
      | nil => simp at h
      | cons y l1t =>
        simp only [List.cons_append, List.singleton_append, List.cons.injEq] at h
        obtain ⟨hy, hrest⟩ := h
        subst hy
        have := ih _ (acc ++ [TriggerOutput.issued t]) l1t l2 n hinv2 hrest
        simpa using this
    · rw [h1] at h hinv2
      cases l1 with
      | nil =>
        simp only [List.nil_append, List.singleton_append, List.cons.injEq,
          TriggerOutput.notified.injEq] at h
        obtain ⟨hm, _⟩ := h
        subst hm
        rw [List.append_nil, ← hid]
        exact hinv.1 m.kind t hp
      | cons y l1t =>
        simp only [List.cons_append, List.singleton_append, List.cons.injEq] at h
        obtain ⟨hy, hrest⟩ := h
        subst hy
        have := ih _ (acc ++ [TriggerOutput.notified m]) l1t l2 n hinv2 hrest
        simpa using this

/-! ## Trigger notifications: the claims -/

end Camera2Client
